import Mathlib

/-!
Shallow embedding of `src/markdownify.js` (an HTML-tree → Markdown converter)
and verification of the frozen claims about it.

Modelling conventions:
* JavaScript strings are modelled as `List Char` (`Str`); `.length`, `.slice`,
  `.repeat` etc. become the corresponding list operations.  UTF-16 surrogate
  pairs are not modelled (all inputs of interest are ASCII).
* DOM nodes are a pure tree (`Node`); parent / sibling links are supplied by a
  zipper context (`Frame`, `Ctx`): the first frame describes the position of
  the current node inside its parent, the next frame the parent's position,
  and so on.  All frames are element nodes, as in the source every parent
  reached by the walker is an element.
* JavaScript numbers arising from `parseInt` are modelled as `Option Int`,
  with `none` playing the role of `NaN`.
* Operations that throw in JavaScript (`Array(invalid length)`,
  `"x".repeat(negative)`, property access on `null`) return `none` in an
  `Option Str` result; `processTag` propagates such exceptions.
-/

namespace Markdownify

/-- JavaScript strings, modelled as lists of characters. -/
abbrev Str := List Char

/-- Embed a Lean string literal as a `Str`. -/
def str (s : String) : Str := s.data

/-- ASCII lower-casing of one character (model of `String.prototype.toLowerCase`
restricted to ASCII, which is all the source compares). -/
def lowerChar (c : Char) : Char :=
  if 'A' ≤ c ∧ c ≤ 'Z' then Char.ofNat (c.toNat + 32) else c

/-- Model of `tagName.toLowerCase()` on Lean `String`s. -/
def lowerS (s : String) : String := ⟨s.data.map lowerChar⟩

/-- The ASCII white-space characters matched by JavaScript's `\s`, `trim`,
`trimStart`, `trimEnd` (Unicode space classes are not modelled). -/
def jsIsSpace (c : Char) : Bool :=
  c == ' ' || c == '\t' || c == '\n' || c == '\r' || c == '\x0b' || c == '\x0c'

/-- Model of `String.prototype.trimStart`. -/
def jsTrimStart (s : Str) : Str := s.dropWhile jsIsSpace

/-- Model of `String.prototype.trimEnd` / `trimRight`. -/
def jsTrimEnd (s : Str) : Str := (s.reverse.dropWhile jsIsSpace).reverse

/-- Model of `String.prototype.trim`. -/
def jsTrim (s : Str) : Str := jsTrimEnd (jsTrimStart s)

/-- Model of `text.replace(/\n+$/, "")` (strip all trailing newlines). -/
def stripTrailingNewlines (s : Str) : Str :=
  (s.reverse.dropWhile (· == '\n')).reverse

/-- Model of `text.replace(/^\n+/, "")` (strip all leading newlines). -/
def stripLeadingNewlines (s : Str) : Str := s.dropWhile (· == '\n')

/-- Number of `'\n'` characters at the end of `s`. -/
def trailingNewlineCount (s : Str) : Nat :=
  (s.reverse.takeWhile (· == '\n')).length

/-- Number of `'\n'` characters at the start of `s`. -/
def leadingNewlineCount (s : Str) : Nat :=
  (s.takeWhile (· == '\n')).length

/-- The newline-collision merge performed by `processTag` when folding an
element child's converted text into the accumulator (source lines 235-241):
the accumulator's trailing newlines and the new piece's leading newlines are
counted and replaced by a single run of `max` many newlines. -/
def mergeNewlineCollision (text nextText : Str) : Str :=
  let textStrip := stripTrailingNewlines text
  let newlinesLeft := text.length - textStrip.length
  let nextTextStrip := stripLeadingNewlines nextText
  let newlinesRight := nextText.length - nextTextStrip.length
  textStrip ++ List.replicate (max newlinesLeft newlinesRight) '\n' ++ nextTextStrip

/-- DOM node tree: elements carry a tag name, attributes and children; text
nodes carry their value; comments and doctypes carry nothing the converter
reads. -/
inductive Node : Type where
  | element (tag : String) (attrs : List (String × String)) (children : List Node)
  | text (value : String)
  | comment
  | doctype
deriving Repr

/-- One step of ancestor context for a node: the parent element's tag and
attributes, and the node's siblings (`before` nearest-first, `after` in
document order). -/
structure Frame : Type where
  parentTag : String
  parentAttrs : List (String × String)
  before : List Node
  after : List Node
deriving Repr

/-- Full ancestor context of a node (outermost frame last). -/
abbrev Ctx := List Frame

/-- The chain of ancestor element tag names, nearest first. -/
def ctxTags (ctx : Ctx) : List String := ctx.map Frame.parentTag

/-- Model of `findAncestor(el, tagNames)` used as a boolean (the source only
tests its truthiness): is some ancestor's lower-cased tag in `names`? -/
def hasAncestorIn (ancestors : List String) (names : List String) : Bool :=
  ancestors.any (fun t => names.contains (lowerS t))

/-- Model of `el.getAttribute(name)`: first matching attribute, `none` = null. -/
def getAttribute (attrs : List (String × String)) (name : String) : Option String :=
  (attrs.find? (fun p => p.1 == name)).map Prod.snd

def Node.isElement : Node → Bool
  | Node.element _ _ _ => true
  | _ => false

/-- Model of `isBlockContent(node)` (source lines 52-62); the argument is
`none` when the source would pass `null`. -/
def isBlockContent : Option Node → Bool
  | none => false
  | some (Node.element _ _ _) => true
  | some Node.comment => false
  | some Node.doctype => false
  | some (Node.text v) => !(jsTrim v.data).isEmpty

/-- First block-content node in a sibling list (models the loops of
`prevBlockContentSibling` / `nextBlockContentSibling`). -/
def firstBlockContent : List Node → Option Node
  | [] => none
  | n :: rest => if isBlockContent (some n) then some n else firstBlockContent rest

/-- First element node in a sibling list (models `previousElementSibling`
when applied to a `before` list). -/
def firstElement : List Node → Option Node
  | [] => none
  | n :: rest => if n.isElement then some n else firstElement rest

/-- Is the tag `h1`..`h6` (model of `htmlHeadingRe.test`)? -/
def isHeadingTag (t : String) : Bool :=
  match t.data with
  | ['h', d] => '1' ≤ d && d ≤ '6'
  | _ => false

/-- Model of `shouldRemoveWhitespaceInside` on a (lower-cased) tag name. -/
def shouldRemoveWsInsideTag (tag : String) : Bool :=
  let t := lowerS tag
  isHeadingTag t ||
    ["p", "blockquote", "article", "div", "section", "ol", "ul", "li",
     "table", "thead", "tbody", "tfoot", "tr", "td", "th"].contains t

/-- Model of `shouldRemoveWhitespaceInside(el)` (source lines 83-104). -/
def shouldRemoveWhitespaceInside : Node → Bool
  | Node.element tag _ _ => shouldRemoveWsInsideTag tag
  | _ => false

/-- Model of `shouldRemoveWhitespaceOutside(el)` (source lines 107-110);
`none` = null argument. -/
def shouldRemoveWhitespaceOutside : Option Node → Bool
  | some (Node.element tag attrs children) =>
      shouldRemoveWhitespaceInside (Node.element tag attrs children) ||
        lowerS tag == "pre"
  | _ => false

/-! ### Whitespace run replacement (the text-node regexes) -/

/-- Characters of the class `[\t \r\n]` used by `newlineWhitespaceRe` and
`allWhitespaceRe`. -/
def isNlWs (c : Char) : Bool := c == '\t' || c == ' ' || c == '\r' || c == '\n'

/-- Emit one buffered `[\t \r\n]` run for `newlineWhitespaceRe`: a run that
contains a CR or LF collapses to a single `'\n'`, a run without stays as is
(the buffer holds the run reversed). -/
def flushNlWsRun (buf : Str) : Str :=
  if buf.isEmpty then []
  else if buf.any (fun d => d == '\r' || d == '\n') then ['\n']
  else buf.reverse

def replNlWsGo : Str → Str → Str
  | [], buf => flushNlWsRun buf
  | c :: rest, buf =>
    if isNlWs c then replNlWsGo rest (c :: buf)
    else flushNlWsRun buf ++ c :: replNlWsGo rest []

/-- Model of `text.replace(newlineWhitespaceRe, "\n")`: every maximal
`[\t \r\n]` run containing at least one CR/LF becomes a single newline. -/
def replaceNewlineWhitespace (s : Str) : Str := replNlWsGo s []

def collapseRunGo (p : Char → Bool) : Str → Bool → Str
  | [], _ => []
  | c :: rest, inRun =>
    if p c then (if inRun then [] else [' ']) ++ collapseRunGo p rest true
    else c :: collapseRunGo p rest false

/-- Model of `text.replace(whitespaceRe, " ")`: collapse `[\t ]+` runs to a
single space. -/
def collapseTabSpace (s : Str) : Str := collapseRunGo (fun c => c == '\t' || c == ' ') s false

/-- Model of `text.replace(allWhitespaceRe, " ")`: collapse `[\t \r\n]+` runs
to a single space. -/
def collapseAllWs (s : Str) : Str := collapseRunGo isNlWs s false

/-! ### Line splitting (the `/^(.*)$/gm` replacements) -/

/-- Split on a separator character, keeping empty pieces, exactly like
`String.prototype.split(sep)` for a one-character separator. -/
def splitOnChar (sep : Char) : Str → List Str
  | [] => [[]]
  | c :: rest =>
    if c == sep then [] :: splitOnChar sep rest
    else
      match splitOnChar sep rest with
      | l :: ls => (c :: l) :: ls
      | [] => [[c]]

/-- Model of `text.replace(lineWithContentRe, f)`: apply `f` to every line
(`/^(.*)$/gm` visits each newline-separated line, including a final empty
one). -/
def mapLines (f : Str → Str) (s : Str) : Str :=
  List.intercalate (str "\n") ((splitOnChar '\n' s).map f)

/-! ### parseInt and JS number helpers -/

/-- Model of `parseInt(s, 10)`; `none` plays the role of `NaN`. -/
def jsParseInt (s : Str) : Option Int :=
  let t := s.dropWhile jsIsSpace
  match t with
  | '-' :: rest =>
    let ds := rest.takeWhile Char.isDigit
    if ds.isEmpty then none else some (-(Int.ofNat (digitsToNat ds)))
  | '+' :: rest =>
    let ds := rest.takeWhile Char.isDigit
    if ds.isEmpty then none else some (Int.ofNat (digitsToNat ds))
  | _ =>
    let ds := t.takeWhile Char.isDigit
    if ds.isEmpty then none else some (Int.ofNat (digitsToNat ds))
where
  digitsToNat (ds : Str) : Nat := ds.foldl (fun acc c => acc * 10 + (c.toNat - '0'.toNat)) 0

/-- Addition of JS numbers that may be `NaN` (`none`). -/
def jsAdd (a b : Option Int) : Option Int :=
  match a, b with
  | some x, some y => some (x + y)
  | _, _ => none

/-- Model of `"x".repeat(n)` for a possibly-`NaN` count: `NaN` coerces to `0`,
a negative count throws a `RangeError` (modelled as `none`). -/
def jsRepeat (s : Str) (n : Option Int) : Option Str :=
  match n with
  | none => some []
  | some k => if k < 0 then none else some (List.flatten (List.replicate k.toNat s))

/-- Model of `Array(n)` as a length: `NaN` or a negative number is an invalid
array length and throws a `RangeError` (modelled as `none`). -/
def jsArrayLength (n : Option Int) : Option Nat :=
  match n with
  | none => none
  | some k => if k < 0 then none else some k.toNat

/-- Model of JS `%` (remainder, sign of the dividend); a zero divisor gives
`NaN` (`none`). -/
def jsRem (a : Int) (b : Nat) : Option Int :=
  if b == 0 then none else some (Int.tmod a (b : Int))

/-- Model of `s[i]` string indexing with a possibly-`NaN`, possibly negative
index: out of range gives `undefined` (`none`). -/
def jsIndex (s : Str) (i : Option Int) : Option Char :=
  match i with
  | none => none
  | some k => if k < 0 then none else s.get? k.toNat

/-! ### The escaper (source lines 296-312) -/

/-- The characters escaped by the first `escape_misc` replacement
(`/([\\&<`\[\]>~=+|])/g`). -/
def isMiscEscapedChar (c : Char) : Bool :=
  c == '\\' || c == '&' || c == '<' || c == '`' || c == '[' || c == ']' ||
    c == '>' || c == '~' || c == '=' || c == '+' || c == '|'

/-- First `escape_misc` replacement: backslash-escape each special character. -/
def escapeMiscChars (s : Str) : Str :=
  s.foldr (fun c acc => if isMiscEscapedChar c then '\\' :: c :: acc else c :: acc) []

/-- A "core" for the three line-marker `escape_misc` regexes: given the text
right after the `(\s|^)` anchor, return the part before the inserted
backslash, the part after it (including a consumed trailing space), and the
number of characters consumed. -/
abbrev MiscCore := Str → Option (Str × Str × Nat)

/-- Core of `/(\s|^)(-+(?:\s|$))/g`: a maximal hyphen run followed by
whitespace or end of input; the backslash lands before the hyphens. -/
def hyphenCore : MiscCore := fun s =>
  let run := s.takeWhile (· == '-')
  if run.isEmpty then none
  else
    match s.drop run.length with
    | [] => some ([], run, run.length)
    | d :: _ =>
      if jsIsSpace d then some ([], run ++ [d], run.length + 1) else none

/-- Core of `/(\s|^)(#{1,6}(?:\s|$))/g`: one to six hashes (a longer maximal
run never matches, since backtracking would leave a `#` after the run)
followed by whitespace or end. -/
def hashCore : MiscCore := fun s =>
  let run := s.takeWhile (· == '#')
  if run.isEmpty || run.length > 6 then none
  else
    match s.drop run.length with
    | [] => some ([], run, run.length)
    | d :: _ =>
      if jsIsSpace d then some ([], run ++ [d], run.length + 1) else none

/-- Core of `/((?:\s|^)[0-9]{1,9})([.)](?:\s|$))/g`: one to nine digits (the
whole maximal run), then `.` or `)`, then whitespace or end; the backslash
lands between the digits and the punctuation. -/
def ordinalCore : MiscCore := fun s =>
  let run := s.takeWhile Char.isDigit
  if run.isEmpty || run.length > 9 then none
  else
    match s.drop run.length with
    | p :: rest =>
      if p == '.' || p == ')' then
        match rest with
        | [] => some (run, [p], run.length + 1)
        | w :: _ =>
          if jsIsSpace w then some (run, [p, w], run.length + 2) else none
      else none
    | [] => none

/-- Left-to-right global replacement for the `(\s|^)(...)` escape_misc
regexes: at each position the anchor is a whitespace character or the very
start of the string (`atStart`), and a successful match consumes its trailing
whitespace so it cannot anchor the next match. -/
def escMiscScan (core : MiscCore) : Str → Bool → Str
  | [], _ => []
  | c :: rest, atStart =>
    if jsIsSpace c then
      match core rest with
      | some (pre, post, k) => (c :: pre) ++ '\\' :: post ++ escMiscScan core (rest.drop k) false
      | none => c :: escMiscScan core rest false
    else if atStart then
      match core (c :: rest) with
      -- a successful core consumes at least one character, so
      -- `(c :: rest).drop k = rest.drop (k - 1)`
      | some (pre, post, k) => pre ++ '\\' :: post ++ escMiscScan core (rest.drop (k - 1)) false
      | none => c :: escMiscScan core rest false
    else
      c :: escMiscScan core rest false
termination_by s _ => s.length
decreasing_by
  all_goals simp [List.length_drop]
  all_goals omega

/-- The `escape_misc` pipeline (the four chained replaces). -/
def escapeMisc (s : Str) : Str :=
  let s1 := escapeMiscChars s
  let s2 := escMiscScan hyphenCore s1 true
  let s3 := escMiscScan hashCore s2 true
  escMiscScan ordinalCore s3 true

/-- Backslash-escape every occurrence of one character. -/
def escapeEvery (target : Char) (s : Str) : Str :=
  s.foldr (fun c acc => if c == target then '\\' :: c :: acc else c :: acc) []

/-! ### Options and the converter constructor (source lines 149-182) -/

/-- The converter options, with the default values merged in by the
constructor (source lines 152-176).  `wrap_width` is nullable in the source
(`!= null` check), hence `Option Nat`. -/
structure Options : Type where
  autolinks : Bool := true
  bullets : String := "*+-"
  code_language : String := ""
  code_language_callback : Option (Node → String) := none
  convert : Option (List String) := none
  default_title : Bool := false
  escape_asterisks : Bool := true
  escape_underscores : Bool := true
  escape_misc : Bool := false
  heading_style : String := "underlined"
  keep_inline_images_in : List String := []
  newline_style : String := "spaces"
  strip : Option (List String) := none
  strip_document : String := "strip"
  strong_em_symbol : String := "*"
  sub_symbol : String := ""
  sup_symbol : String := ""
  table_infer_header : Bool := false
  wrap : Bool := false
  wrap_width : Option Nat := some 80

/-- The constructor's configuration error message. -/
def bothStripAndConvertMsg : String :=
  "You may specify either tags to strip or tags to convert, but not both."

/-- Model of `new MarkdownConverter(options)`: after merging defaults, throw
if both `strip` and `convert` are non-null, otherwise the converter (its
options record) is returned. -/
def mkConverter (opts : Options) : Except String Options :=
  if opts.strip.isSome && opts.convert.isSome then
    Except.error bothStripAndConvertMsg
  else
    Except.ok opts

/-- Model of `shouldConvertTag` (source lines 284-293). -/
def shouldConvertTag (conv : Options) (tag : String) : Bool :=
  let lowerTag := lowerS tag
  match conv.strip with
  | some s => !(s.contains lowerTag)
  | none =>
    match conv.convert with
    | some c => c.contains lowerTag
    | none => true

/-- Model of `escape` (source lines 296-312). -/
def escape (conv : Options) (text : Str) : Str :=
  if text.isEmpty then []
  else
    let t1 := if conv.escape_misc then escapeMisc text else text
    let t2 := if conv.escape_asterisks then escapeEvery '*' t1 else t1
    if conv.escape_underscores then escapeEvery '_' t2 else t2

/-- Model of `processText` (source lines 256-281).  `ancestors` is the chain
of ancestor element tags of the text node, nearest (its parent) first; `prev`
and `next` are its immediate siblings (`none` = null). -/
def processText (conv : Options) (ancestors : List String) (prev next : Option Node)
    (value : Str) : Str :=
  let text := value
  let text :=
    if !(hasAncestorIn ancestors ["pre"]) then
      if conv.wrap then collapseAllWs text
      else collapseTabSpace (replaceNewlineWhitespace text)
    else text
  let text :=
    if !(hasAncestorIn ancestors ["pre", "code", "kbd", "samp"]) then escape conv text
    else text
  let parentRemoves :=
    match ancestors.head? with
    | some pt => shouldRemoveWsInsideTag pt
    | none => false
  let text :=
    if shouldRemoveWhitespaceOutside prev || (parentRemoves && prev.isNone) then
      jsTrimStart text
    else text
  let text :=
    if shouldRemoveWhitespaceOutside next || (parentRemoves && next.isNone) then
      jsTrimEnd text
    else text
  text

/-! ### Small shared helpers of the tag rules -/

/-- Model of `chomp` (source lines 28-33): returns (prefix space, suffix
space, trimmed text). -/
def chomp (text : Str) : Str × Str × Str :=
  let pre := if text.head? = some ' ' then [' '] else []
  let suf := if text.getLast? = some ' ' then [' '] else []
  (pre, suf, jsTrim text)

/-- Model of `abstractInlineConversion` (source lines 113-125), with the
markup symbol already computed from the options. -/
def abstractInlineConversion (markup : Str) (ctx : Ctx) (text : Str) : Str :=
  if hasAncestorIn (ctxTags ctx) ["pre", "code", "kbd", "samp"] then text
  else
    let c := chomp text
    if c.2.2.isEmpty then []
    else
      let markupSuffix :=
        if markup.head? = some '<' ∧ markup.getLast? = some '>' then
          '<' :: '/' :: markup.drop 1
        else markup
      c.1 ++ markup ++ c.2.2 ++ markupSuffix ++ c.2.1

/-- Model of the `underline` method (source lines 315-318). -/
def underline (text : Str) (padChar : Str) : Str :=
  let text := jsTrimEnd text
  if text.isEmpty then []
  else
    str "\n\n" ++ text ++ str "\n" ++
      List.flatten (List.replicate text.length padChar) ++ str "\n\n"

/-- Model of `wordWrap` (source lines 128-144). -/
def wordWrap (s : Str) (width : Nat) : Str :=
  let words := splitOnChar ' ' s
  let p := words.foldl
    (fun (p : List Str × Str) word =>
      if (p.2 ++ word).length > width then (p.1 ++ [jsTrim p.2], word ++ [' '])
      else (p.1, p.2 ++ word ++ [' ']))
    ([], [])
  let lines := if !p.2.isEmpty then p.1 ++ [jsTrim p.2] else p.1
  List.intercalate (str "\n") lines

/-- Truthiness of a nullable string attribute (`!title`). -/
def titleFalsy : Option String → Bool
  | none => true
  | some s => s.data.isEmpty

/-- Model of `title.replace(/"/g, '\\"')`. -/
def escapeQuotes (s : Str) : Str :=
  s.foldr (fun c acc => if c == '\x22' then '\\' :: c :: acc else c :: acc) []

/-- The inline flag handed to the children of a node (source lines 194-197):
`convertAsInline || htmlHeadingRe.test(tag) || (tag === 'td' || tag === 'th')`,
with `tag` already lower-cased. -/
def childInlineFlag (inline : Bool) (tag : String) : Bool :=
  inline || isHeadingTag tag || (tag == "td" || tag == "th")

/-- Model of the walker's `canIgnore` filter (source lines 201-227):
`removeInside` is `shouldRemoveWhitespaceInside(node)` for the parent being
processed, `prev`/`next` are the child's immediate siblings. -/
def canIgnore (removeInside : Bool) (prev next : Option Node) : Node → Bool
  | Node.element _ _ _ => false
  | Node.comment => true
  | Node.doctype => true
  | Node.text v =>
    if !(jsTrim v.data).isEmpty then false
    else if removeInside && (prev.isNone || next.isNone) then true
    else if shouldRemoveWhitespaceOutside prev || shouldRemoveWhitespaceOutside next then true
    else false

/-! ### Tag conversion rules (source lines 322-686) -/

/-- Model of `chompedText.replace(/\\_/g, "_")` in `convert_a`. -/
def replaceEscapedUnderscores : Str → Str
  | '\\' :: '_' :: rest => '_' :: replaceEscapedUnderscores rest
  | c :: rest => c :: replaceEscapedUnderscores rest
  | [] => []

/-- Model of `convert_a` (source lines 322-341). -/
def convert_a (conv : Options) (attrs : List (String × String)) (ctx : Ctx)
    (text : Str) : Str :=
  if hasAncestorIn (ctxTags ctx) ["pre", "code", "kbd", "samp"] then text
  else
    let c := chomp text
    if c.2.2.isEmpty then []
    else
      let href := getAttribute attrs "href"
      let title := getAttribute attrs "title"
      match href with
      | none =>
        -- the autolink test compares against null (false) and the final
        -- `href ? ... : text` is falsy, so the text passes through
        text
      | some h =>
        if conv.autolinks && (replaceEscapedUnderscores c.2.2 == h.data) &&
            titleFalsy title && !conv.default_title then
          '<' :: h.data ++ ['>']
        else
          let title2 := if conv.default_title && titleFalsy title then some h else title
          let titlePart :=
            match title2 with
            | some t => if t.data.isEmpty then [] else str " \x22" ++ escapeQuotes t.data ++ str "\x22"
            | none => []
          -- final `return href ? `...` : text`: a present-but-empty href
          -- string is falsy too, so the text passes through unchanged
          if h.data.isEmpty then text
          else c.1 ++ '[' :: c.2.2 ++ str "](" ++ h.data ++ titlePart ++ ')' :: c.2.1

/-- Model of `convert_b` / `convert_strong`. -/
def convert_b (conv : Options) (ctx : Ctx) (text : Str) : Str :=
  abstractInlineConversion (conv.strong_em_symbol.data ++ conv.strong_em_symbol.data) ctx text

/-- Model of `convert_blockquote` (source lines 353-359). -/
def convert_blockquote (text : Str) (inline : Bool) : Str :=
  let text := jsTrim text
  if inline then ' ' :: text ++ [' ']
  else if text.isEmpty then str "\n"
  else
    let text := mapLines (fun l => if l.isEmpty then str ">" else str "> " ++ l) text
    '\n' :: text ++ str "\n\n"

/-- Model of `convert_br` (source lines 361-366). -/
def convert_br (conv : Options) (inline : Bool) : Str :=
  if inline then []
  else if lowerS conv.newline_style == "backslash" then str "\\\n"
  else str "  \n"

/-- Model of `convert_code` / `convert_kbd` / `convert_samp`
(source lines 368-382). -/
def convert_code (_conv : Options) (ctx : Ctx) (text : Str) : Str :=
  match ctx.head? with
  | some f =>
    if lowerS f.parentTag == "pre" then text
    else abstractInlineConversion (str "`") ctx text
  | none => abstractInlineConversion (str "`") ctx text

/-- Model of `convert_del` / `convert_s`. -/
def convert_del (ctx : Ctx) (text : Str) : Str :=
  abstractInlineConversion (str "~~") ctx text

/-- Model of `convert_div` / `convert_article` / `convert_section`
(source lines 394-406). -/
def convert_div (text : Str) (inline : Bool) : Str :=
  if inline then ' ' :: jsTrim text ++ [' ']
  else
    let text := jsTrim text
    if text.isEmpty then [] else str "\n\n" ++ text ++ str "\n\n"

/-- Model of `convert_em` / `convert_i`. -/
def convert_em (conv : Options) (ctx : Ctx) (text : Str) : Str :=
  abstractInlineConversion conv.strong_em_symbol.data ctx text

/-- Model of `convert_dd` (source lines 422-429). -/
def convert_dd (text : Str) (inline : Bool) : Str :=
  let text := jsTrim text
  if inline then ' ' :: text ++ [' ']
  else if text.isEmpty then str "\n"
  else
    let text := mapLines (fun l => if l.isEmpty then [] else str "    " ++ l) text
    let text := ':' :: text.drop 1
    text ++ str "\n"

/-- Model of `convert_dt` (source lines 431-437). -/
def convert_dt (text : Str) (inline : Bool) : Str :=
  let text := jsTrim text
  let text := collapseAllWs text
  if inline then ' ' :: text ++ [' ']
  else if text.isEmpty then str "\n"
  else '\n' :: text ++ str "\n"

/-- Model of `_convert_hn` (source lines 439-454). -/
def convert_hn (conv : Options) (n : Nat) (text : Str) (inline : Bool) : Str :=
  if inline then text
  else
    let n := max 1 (min 6 n)
    let style := lowerS conv.heading_style
    let text := jsTrim text
    if style = "underlined" ∧ n ≤ 2 then
      underline text (if n == 1 then str "=" else str "-")
    else
      let text := collapseAllWs text
      let hashes : Str := List.replicate n '#'
      if style = "atx_closed" then
        str "\n\n" ++ hashes ++ ' ' :: text ++ ' ' :: hashes ++ str "\n\n"
      else
        str "\n\n" ++ hashes ++ ' ' :: text ++ str "\n\n"

/-- Model of `convert_hr`. -/
def convert_hr : Str := str "\n\n---\n\n"

/-- Model of `convert_img` (source lines 464-479). -/
def convert_img (conv : Options) (attrs : List (String × String)) (ctx : Ctx)
    (inline : Bool) : Str :=
  let alt := ((getAttribute attrs "alt").getD "").data
  let src := ((getAttribute attrs "src").getD "").data
  let title := ((getAttribute attrs "title").getD "").data
  let titlePart :=
    if title.isEmpty then [] else str " \x22" ++ escapeQuotes title ++ str "\x22"
  let noParentOrNotKept :=
    match ctx.head? with
    | none => true
    | some f => !(conv.keep_inline_images_in.contains (lowerS f.parentTag))
  if inline && noParentOrNotKept then alt
  else str "![" ++ alt ++ str "](" ++ src ++ titlePart ++ str ")"

/-- The `nested` test of `convert_list` (source lines 492-499): the walk
starts at the element itself and climbs through all ancestors looking for an
`li`. -/
def listNested (elTag : String) (ctx : Ctx) : Bool :=
  lowerS elTag == "li" || ctx.any (fun f => lowerS f.parentTag == "li")

/-- The `beforeParagraph` test of `convert_list` (source lines 484-491): the
next block-content sibling exists, is an element, and is not a `ul`/`ol`. -/
def listBeforeParagraph (ctx : Ctx) : Bool :=
  let nextSib :=
    match ctx.head? with
    | some f => firstBlockContent f.after
    | none => none
  match nextSib with
  | some (Node.element t _ _) => !(["ul", "ol"].contains (lowerS t))
  | _ => false

/-- Model of `convert_list` (= `convert_ul` / `convert_ol`,
source lines 481-512). -/
def convert_list (elTag : String) (ctx : Ctx) (text : Str) : Str :=
  if listNested elTag ctx then '\n' :: stripTrailingNewlines text
  else str "\n\n" ++ text ++ (if listBeforeParagraph ctx then str "\n" else [])

/-- The `start` value used by `convert_li` for an `ol` parent (source lines
524-525).  `Number.isNaN(startAttr)` is false for every string, so any
non-empty attribute is handed to `parseInt`; `none` models the resulting
`NaN` for a non-numeric attribute. -/
def olStartValue (parentAttrs : List (String × String)) : Option Int :=
  match getAttribute parentAttrs "start" with
  | none => some 1
  | some v => if v.data.isEmpty then some 1 else jsParseInt v.data

/-- The li's position among its parent's `li` element children (source lines
526-531).  `indexOf` compares by object identity, so the index of the element
equals the number of `li` element siblings before it. -/
def liIndex (f : Frame) : Nat :=
  (f.before.filter (fun c =>
    match c with
    | Node.element t _ _ => lowerS t == "li"
    | _ => false)).length

/-- The number of `ul` elements on the chain from the element itself through
its ancestors (the `depth` walk of `convert_li`, source lines 533-544, starts
at `-1` and adds one per `ul`). -/
def ulChainCount (elTag : String) (ctx : Ctx) : Nat :=
  (if lowerS elTag == "ul" then 1 else 0) +
    (ctx.filter (fun f => lowerS f.parentTag == "ul")).length

/-- The bullet string computed by `convert_li` (source lines 517-547).  For
an `ol` parent the bullet is `(start + index) + "."` — `NaN` stringifies as
`"NaN"`.  Otherwise `bullets[depth % bullets.length]` is used, where JS `%`
keeps the dividend's sign and an out-of-range (or `NaN`) index yields
`undefined`, which stringifies as `"undefined"` when concatenated. -/
def liBullet (conv : Options) (elTag : String) (ctx : Ctx) : Str :=
  let olCase :=
    match ctx.head? with
    | some f =>
      if lowerS f.parentTag == "ol" then
        some ((match olStartValue f.parentAttrs with
          | some s => (toString (s + (liIndex f : Int))).data
          | none => str "NaN") ++ str ".")
      else none
    | none => none
  match olCase with
  | some b => b
  | none =>
    let depth : Int := (ulChainCount elTag ctx : Int) - 1
    match jsIndex conv.bullets.data (jsRem depth conv.bullets.data.length) with
    | some c => [c]
    | none => str "undefined"

/-- Model of `convert_li` (source lines 514-554). -/
def convert_li (conv : Options) (elTag : String) (ctx : Ctx) (text : Str) : Str :=
  let text := jsTrim text
  if text.isEmpty then str "\n"
  else
    let bullet := liBullet conv elTag ctx ++ [' ']
    let bulletWidth := bullet.length
    let bulletIndent : Str := List.replicate bulletWidth ' '
    let text := mapLines (fun l => if l.isEmpty then [] else bulletIndent ++ l) text
    let text := bullet ++ text.drop bulletWidth
    text ++ str "\n"

/-- Model of `convert_p` (source lines 556-567). -/
def convert_p (conv : Options) (text : Str) (inline : Bool) : Str :=
  if inline then ' ' :: jsTrim text ++ [' ']
  else
    let text := jsTrim text
    let text :=
      if conv.wrap then
        match conv.wrap_width with
        | some w =>
          List.intercalate (str "\n")
            ((splitOnChar '\n' text).map (fun l => wordWrap (jsTrimStart l) w))
        | none => text
      else text
    if text.isEmpty then [] else str "\n\n" ++ text ++ str "\n\n"

/-- Model of `convert_pre` (source lines 569-576). -/
def convert_pre (conv : Options) (el : Node) (text : Str) : Str :=
  if text.isEmpty then []
  else
    let codeLang := conv.code_language.data
    let codeLang :=
      match conv.code_language_callback with
      | some f => let r := (f el).data; if r.isEmpty then codeLang else r
      | none => codeLang
    str "\n\n```" ++ codeLang ++ '\n' :: text ++ str "\n```\n\n"

/-- Model of `convert_table`. -/
def convert_table (text : Str) : Str := str "\n\n" ++ jsTrim text ++ str "\n\n"

/-- Model of `convert_caption`. -/
def convert_caption (text : Str) : Str := jsTrim text ++ str "\n\n"

/-- Model of `convert_figcaption`. -/
def convert_figcaption (text : Str) : Str := str "\n\n" ++ jsTrim text ++ str "\n\n"

/-- The colspan of a `td`/`th` cell (source lines 631-635 / 640-644 / 672-673).
`Number.isNaN(cs)` is false for every string, so any non-empty attribute is
handed to `parseInt`; `none` models the resulting `NaN`. -/
def cellColspan (attrs : List (String × String)) : Option Int :=
  match getAttribute attrs "colspan" with
  | none => some 1
  | some v => if v.data.isEmpty then some 1 else jsParseInt v.data

/-- Model of `text.trim().replace(/\n/g, " ")` in the cell rules. -/
def newlinesToSpaces (s : Str) : Str := s.map (fun c => if c == '\n' then ' ' else c)

/-- Model of `convert_td` (source lines 630-637); `none` models the
`RangeError` of `" |".repeat(negative)`. -/
def convert_td (attrs : List (String × String)) (text : Str) : Option Str :=
  (jsRepeat (str " |") (cellColspan attrs)).map
    (fun pipes => ' ' :: newlinesToSpaces (jsTrim text) ++ pipes)

/-- Model of `convert_th` (source lines 639-646, identical body). -/
def convert_th (attrs : List (String × String)) (text : Str) : Option Str :=
  (jsRepeat (str " |") (cellColspan attrs)).map
    (fun pipes => ' ' :: newlinesToSpaces (jsTrim text) ++ pipes)

/-- Model of `convert_sub`. -/
def convert_sub (conv : Options) (ctx : Ctx) (text : Str) : Str :=
  abstractInlineConversion conv.sub_symbol.data ctx text

/-- Model of `convert_sup`. -/
def convert_sup (conv : Options) (ctx : Ctx) (text : Str) : Str :=
  abstractInlineConversion conv.sup_symbol.data ctx text

/-- Model of `convert_script` / `convert_style`. -/
def convert_script : Str := []

/-! ### convert_tr (source lines 648-686) -/

/-- The `td`/`th` element children of the row (source lines 649-652). -/
def trCells (children : List Node) : List Node :=
  children.filter (fun c =>
    match c with
    | Node.element t _ _ => lowerS t == "td" || lowerS t == "th"
    | _ => false)

/-- Model of `!el.previousElementSibling` at the row's position. -/
def trIsFirstRow (ctx : Ctx) : Bool :=
  match ctx.head? with
  | some f => (firstElement f.before).isNone
  | none => true

/-- Number of element children of the row's parent (`el.parentNode.children
.length`), the row itself included. -/
def elementChildrenCount (f : Frame) : Nat :=
  (f.before.filter Node.isElement).length + 1 + (f.after.filter Node.isElement).length

/-- Model of `isHeadRow` (source lines 654-659): every cell is a `th`
(vacuously true for no cells, as `Array.prototype.every`), or the parent is a
`thead` with exactly one element child. -/
def trIsHeadRow (cells : List Node) (ctx : Ctx) : Bool :=
  cells.all (fun c =>
    match c with
    | Node.element t _ _ => lowerS t == "th"
    | _ => false) ||
  (match ctx.head? with
   | some f => lowerS f.parentTag == "thead" && elementChildrenCount f == 1
   | none => false)

/-- Rebuild the parent element of a node from its frame. -/
def rebuildParent (f : Frame) (self : Node) : Node :=
  Node.element f.parentTag f.parentAttrs (f.before.reverse ++ self :: f.after)

mutual

/-- Does the node have a strict descendant element with tag `thead`
(model of `querySelector("thead")` used for its truthiness)? -/
def hasTheadDescendant : Node → Bool
  | Node.element _ _ children => hasTheadInList children
  | _ => false

def hasTheadInList : List Node → Bool
  | [] => false
  | c :: rest =>
    (match c with
     | Node.element t _ _ => lowerS t == "thead"
     | _ => false) || hasTheadDescendant c || hasTheadInList rest

end

/-- Model of `isHeadRowMissing` (source lines 660-667).  The second disjunct
dereferences `el.parentNode.parentNode`; when the row's parent is a `tbody`
with no parent of its own this is `null.querySelector`, a `TypeError`
(modelled as `none`). -/
def trHeadRowMissing (el : Node) (ctx : Ctx) (isFirstRow : Bool) : Option Bool :=
  match ctx with
  | [] => some false
  | f :: rest =>
    if isFirstRow && !(lowerS f.parentTag == "tbody") then some true
    else if isFirstRow && lowerS f.parentTag == "tbody" then
      match rest with
      | [] => none
      | g :: _ => some (!(hasTheadDescendant (rebuildParent g (rebuildParent f el))))
    else some false

/-- Sum of the cells' colspans (source lines 671-674); `none` models `NaN`
poisoning the sum. -/
def trFullColspan (cells : List Node) : Option Int :=
  cells.foldl
    (fun acc c =>
      jsAdd acc
        (match c with
         | Node.element _ attrs _ => cellColspan attrs
         | _ => some 1))
    (some 0)

/-- The second branch's condition (source lines 676-681): note that
`el.parentNode.tagName` is dereferenced without a null check, so a parentless
first row reaching this branch throws (modelled as `none`). -/
def trOverlineCond (ctx : Ctx) (headRowMissing isFirstRow : Bool) (infer : Bool) :
    Option Bool :=
  if headRowMissing && !infer then some true
  else if isFirstRow then
    match ctx with
    | [] => none
    | f :: rest =>
      some (lowerS f.parentTag == "table" ||
        (lowerS f.parentTag == "tbody" &&
          (match rest with
           | [] => true
           | g :: _ => (firstElement g.before).isNone)))
  else some false

/-- The child list of an element node. -/
def elChildren : Node → List Node
  | Node.element _ _ cs => cs
  | _ => []

/-- Model of `convert_tr` (source lines 648-686). -/
def convert_tr (conv : Options) (el : Node) (ctx : Ctx) (text : Str) : Option Str := do
  let cells := trCells (elChildren el)
  let isFirstRow := trIsFirstRow ctx
  let isHeadRow := trIsHeadRow cells ctx
  let headRowMissing ← trHeadRowMissing el ctx isFirstRow
  if (isHeadRow || (headRowMissing && conv.table_infer_header)) && isFirstRow then
    let n ← jsArrayLength (trFullColspan cells)
    let underlineStr :=
      str "| " ++ List.intercalate (str " | ") (List.replicate n (str "---")) ++ str " |\n"
    pure ('|' :: text ++ '\n' :: underlineStr)
  else
    let c2 ← trOverlineCond ctx headRowMissing isFirstRow conv.table_infer_header
    let overlineStr :=
      if c2 then
        str "| " ++ List.intercalate (str " | ") (List.replicate cells.length []) ++ str " |\n" ++
        str "| " ++ List.intercalate (str " | ") (List.replicate cells.length (str "___")) ++ str " |\n"
      else []
    pure (overlineStr ++ '|' :: text ++ str "\n")

/-! ### The recursive walker (source lines 185-253) -/

/-- The heading level `Number(tag.charAt(1))` of an `h1`..`h6` tag. -/
def headingLevel (t : String) : Nat :=
  match t.data with
  | [_, d] => d.toNat - '0'.toNat
  | _ => 0

/-- The dynamic dispatch of `processTag` (source lines 245-250): look up
`convert_<tag>`; a tag failing `shouldConvertTag`, or one with no rule,
passes its aggregated child text through unchanged.  `tag` is the lower-cased
tag name. -/
def applyConvertFn (conv : Options) (tag : String) (attrs : List (String × String))
    (el : Node) (ctx : Ctx) (text : Str) (inline : Bool) : Option Str :=
  if !(shouldConvertTag conv tag) then some text
  else
    match tag with
    | "a" => some (convert_a conv attrs ctx text)
    | "b" => some (convert_b conv ctx text)
    | "blockquote" => some (convert_blockquote text inline)
    | "br" => some (convert_br conv inline)
    | "code" => some (convert_code conv ctx text)
    | "del" => some (convert_del ctx text)
    | "div" => some (convert_div text inline)
    | "article" => some (convert_div text inline)
    | "section" => some (convert_div text inline)
    | "em" => some (convert_em conv ctx text)
    | "i" => some (convert_em conv ctx text)
    | "kbd" => some (convert_code conv ctx text)
    | "samp" => some (convert_code conv ctx text)
    | "dd" => some (convert_dd text inline)
    | "dt" => some (convert_dt text inline)
    | "hr" => some convert_hr
    | "img" => some (convert_img conv attrs ctx inline)
    | "ul" => some (convert_list tag ctx text)
    | "ol" => some (convert_list tag ctx text)
    | "li" => some (convert_li conv tag ctx text)
    | "p" => some (convert_p conv text inline)
    | "pre" => some (convert_pre conv el text)
    | "script" => some convert_script
    | "style" => some convert_script
    | "s" => some (convert_del ctx text)
    | "strong" => some (convert_b conv ctx text)
    | "sub" => some (convert_sub conv ctx text)
    | "sup" => some (convert_sup conv ctx text)
    | "table" => some (convert_table text)
    | "caption" => some (convert_caption text)
    | "figcaption" => some (convert_figcaption text)
    | "td" => convert_td attrs text
    | "th" => convert_th attrs text
    | "tr" => convert_tr conv el ctx text
    | _ =>
      if isHeadingTag tag then some (convert_hn conv (headingLevel tag) text inline)
      else some text

mutual

/-- Model of `processTag` (source lines 190-253).  Text, comment and doctype
nodes have no child nodes and no conversion rule, so they yield the empty
string.  `none` propagates a thrown exception. -/
def processTag (conv : Options) (node : Node) (ctx : Ctx) (inline : Bool) : Option Str :=
  match node with
  | Node.element tag attrs children => do
    let t := lowerS tag
    let text ← processChildren conv tag attrs ctx
      (shouldRemoveWhitespaceInside (Node.element tag attrs children))
      [] children (childInlineFlag inline t) []
    applyConvertFn conv t attrs (Node.element tag attrs children) ctx text inline
  | _ => some []

/-- The child-folding loop of `processTag` (source lines 229-243), fused with
the `canIgnore` filter: `before` holds the already-passed original siblings
(nearest first), `rest` the remaining ones; ignored children contribute
nothing but stay visible as siblings. -/
def processChildren (conv : Options) (parentTag : String)
    (parentAttrs : List (String × String)) (ctx : Ctx) (removeInside : Bool)
    (before rest : List Node) (inline : Bool) (acc : Str) : Option Str :=
  match rest with
  | [] => some acc
  | child :: after =>
    if canIgnore removeInside before.head? after.head? child then
      processChildren conv parentTag parentAttrs ctx removeInside
        (child :: before) after inline acc
    else
      match child with
      | Node.text v =>
        processChildren conv parentTag parentAttrs ctx removeInside
          (child :: before) after inline
          (acc ++ processText conv (parentTag :: ctxTags ctx) before.head? after.head? v.data)
      | _ => do
        let nextText ← processTag conv child
          (⟨parentTag, parentAttrs, before, after⟩ :: ctx) inline
        processChildren conv parentTag parentAttrs ctx removeInside
          (child :: before) after inline (mergeNewlineCollision acc nextText)

end

/-- Model of `MarkdownConverter.prototype.convert` (source lines 185-187). -/
def convert (conv : Options) (dom : Node) : Option Str :=
  processTag conv dom [] false

/-- Model of the top-level `markdownify(dom, options)` (source lines 692-694):
the constructor may throw the configuration error; the conversion itself may
throw a runtime error (`none`). -/
def markdownify (dom : Node) (opts : Options) : Except String (Option Str) :=
  (mkConverter opts).map (fun c => convert c dom)

/-! ## Verification of the claims -/

/-- C9: the inline-context flag is monotone down the recursion: `processTag`
hands its children the flag `childInlineFlag inline tag`, and for every tag
this is `true` whenever the inherited flag is `true` — the flag only turns on
(for headings and `td`/`th`) and is never reset by any rule, so by induction
every descendant of a node processed with `convertAsInline = true` is also
processed with the flag `true`. -/
theorem claim_C9_inline_flag_monotone (tag : String) :
    childInlineFlag true tag = true := by
  simp [childInlineFlag]

/-- C5: constructing a `MarkdownConverter` errors exactly when both `strip`
and `convert` are non-null; in every other case construction succeeds and
returns the converter (so no partially-constructed converter exists in the
error case), and this check is the only source of a construction-time
error. -/
theorem claim_C5_constructor_error_iff (o : Options) :
    ((∃ e, mkConverter o = Except.error e) ↔
      (o.strip.isSome = true ∧ o.convert.isSome = true)) ∧
    (mkConverter o = Except.ok o ↔
      ¬(o.strip.isSome = true ∧ o.convert.isSome = true)) := by
  constructor
  · constructor
    · rintro ⟨e, he⟩
      unfold mkConverter at he
      by_cases hb : (o.strip.isSome && o.convert.isSome) = true
      · exact Bool.and_eq_true _ _ |>.mp hb
      · simp [hb] at he
    · intro hc
      refine ⟨bothStripAndConvertMsg, ?_⟩
      unfold mkConverter
      simp [hc.1, hc.2]
  · constructor
    · intro hok hc
      unfold mkConverter at hok
      simp [hc.1, hc.2] at hok
    · intro hc
      have hb : (o.strip.isSome && o.convert.isSome) = false := by
        cases hs : o.strip.isSome <;> cases hv : o.convert.isSome <;> simp_all
      unfold mkConverter
      simp [hb]

/-- Witness for C5 at concrete inputs: both lists set errors, the default
options construct successfully. -/
theorem claim_C5_constructor_error_iff_witness :
    (∃ e, mkConverter { strip := some ["a"], convert := some ["b"] } = Except.error e) ∧
    mkConverter ({} : Options) = Except.ok {} :=
  ⟨(claim_C5_constructor_error_iff _).1.mpr (by decide),
   (claim_C5_constructor_error_iff _).2.mpr (by decide)⟩

/-- C2 is a code bug: the spec says non-numeric `colspan` / `start`
attributes are treated as absent (falling back to 1) and never raise, but the
code guards with `Number.isNaN(attr)` — always false for a string — so
`parseInt` produces `NaN`: the li bullet of `<ol start="abc"><li>x</li></ol>`
renders as `"NaN."` instead of `"1."`, a `td` with `colspan="abc"` emits zero
trailing `" |"` separators instead of one, and a head row containing a `th`
with `colspan="abc"` reaches `Array(NaN)`, which throws a `RangeError`
(modelled as `none`), so conversion can raise. -/
theorem claim_C2_nan_attributes_bug :
    convert_li {} "li" [⟨"ol", [("start", "abc")], [], []⟩] (str "x") = str "NaN. x\n" ∧
    convert_td [("colspan", "abc")] (str "x") = some (str " x") ∧
    convert_tr {} (Node.element "tr" [] [Node.element "th" [("colspan", "abc")] []])
      [⟨"table", [], [], []⟩] (str " x |") = none := by
  decide

/-- C10: an `h1`/`h2` whose aggregated child text is empty or whitespace-only
converts, under the default underlined (setext) heading style and outside
inline context, to the empty string — no blank-line wrapper and no setext
rule — whereas the ATX style still emits a hash-prefix line. -/
theorem claim_C10_empty_setext_heading (conv : Options) (n : Nat) (text : Str)
    (hn : n = 1 ∨ n = 2) (htext : jsTrim text = []) :
    (lowerS conv.heading_style = "underlined" → convert_hn conv n text false = []) ∧
    (lowerS conv.heading_style = "atx" →
      convert_hn conv n text false = str "\n\n" ++ List.replicate n '#' ++ ' ' :: str "\n\n") := by
  have h2 : max 1 (min 6 n) = n := by rcases hn with rfl | rfl <;> rfl
  constructor
  · intro hstyle
    rcases hn with rfl | rfl <;>
      simp [convert_hn, hstyle, htext, underline, jsTrimEnd]
  · intro hstyle
    rcases hn with rfl | rfl <;>
      simp [convert_hn, hstyle, htext, collapseAllWs, collapseRunGo]

/-- Witness for C10: whitespace-only `h2` under the default style gives `""`;
the ATX contrast at `h1` gives a bare hash line. -/
theorem claim_C10_empty_setext_heading_witness :
    convert_hn {} 2 (str " \n ") false = [] ∧
    convert_hn { heading_style := "atx" } 1 (str " ") false = str "\n\n# \n\n" := by
  constructor
  · exact (claim_C10_empty_setext_heading {} 2 (str " \n ") (Or.inr rfl) (by decide)).1
      (by decide)
  · rw [(claim_C10_empty_setext_heading { heading_style := "atx" } 1 (str " ")
      (Or.inl rfl) (by decide)).2 (by decide)]
    decide

/-- C4 as stated is false: it quantifies over every option record with
`autolinks` true, but `convert_a` additionally requires `default_title` to be
disabled.  With `default_title := true` (and `autolinks` left at its default
`true`), `<a href="x">x</a>` produces `[x](x "x")`, not `<x>`. -/
theorem claim_C4_counterexample :
    convert_a { default_title := true } [("href", "x")] [] (str "x") = str "[x](x \x22x\x22)" ∧
    convert_a { default_title := true } [("href", "x")] [] (str "x") ≠ str "<x>" ∧
    ({ default_title := true } : Options).autolinks = true := by
  decide

/-- C4 amended: for every `a` element outside `pre`/`code`/`kbd`/`samp`
contexts whose chomped link text, after undoing underscore-escaping
(`\_` → `_`), equals its (present) `href` attribute, whose title attribute is
absent or empty, when `autolinks` is enabled **and `default_title` is
disabled**, the rule returns `<href>`. -/
theorem claim_C4_autolink (conv : Options) (attrs : List (String × String)) (ctx : Ctx)
    (text : Str) (h : String)
    (hanc : hasAncestorIn (ctxTags ctx) ["pre", "code", "kbd", "samp"] = false)
    (hhref : getAttribute attrs "href" = some h)
    (heq : replaceEscapedUnderscores (chomp text).2.2 = h.data)
    (hne : (chomp text).2.2 ≠ [])
    (htitle : titleFalsy (getAttribute attrs "title") = true)
    (hauto : conv.autolinks = true)
    (hdt : conv.default_title = false) :
    convert_a conv attrs ctx text = '<' :: h.data ++ ['>'] := by
  simp [convert_a, hanc, hhref, heq, hne, htitle, hauto, hdt]

/-- Witness for C4: `<a href="x">x</a>` with the default options produces
`<x>`. -/
theorem claim_C4_autolink_witness :
    convert_a {} [("href", "x")] [] (str "x") = str "<x>" := by
  rw [claim_C4_autolink {} [("href", "x")] [] (str "x") "x" (by decide) (by decide)
    (by decide) (by decide) (by decide) (by decide) (by decide)]
  decide

/-- C6 as stated is false: in the non-nested case the claim promises an
unconditional trailing newline plus an extra one before a non-list sibling,
but `convert_list` appends no trailing newline at all unless the next
block-content sibling is a non-list element: a top-level `ul` with no sibling
yields `"\n\n" ++ text` and not `"\n\n" ++ text ++ "\n"`. -/
theorem claim_C6_counterexample :
    convert_list "ul" [] (str "* a\n") = str "\n\n* a\n" ∧
    convert_list "ul" [] (str "* a\n") ≠ str "\n\n* a\n" ++ str "\n" := by
  decide

/-- C6 amended: a `ul`/`ol` nested inside an `li` (the walk checks the element
itself and every ancestor) yields a single newline plus the child text with
trailing newlines stripped; otherwise the output is two leading newlines plus
the child text, plus one trailing newline exactly when the next block-content
sibling exists, is an element, and is not a `ul`/`ol` (a non-element
block-content sibling adds nothing, and there is no unconditional trailing
newline). -/
theorem claim_C6_list_wrapping (elTag : String) (ctx : Ctx) (text : Str) :
    (listNested elTag ctx = true ↔
      lowerS elTag = "li" ∨ ∃ f ∈ ctx, lowerS f.parentTag = "li") ∧
    (listNested elTag ctx = true →
      convert_list elTag ctx text = '\n' :: stripTrailingNewlines text) ∧
    (listNested elTag ctx = false →
      convert_list elTag ctx text =
        str "\n\n" ++ text ++ (if listBeforeParagraph ctx then str "\n" else [])) ∧
    (listBeforeParagraph ctx = true ↔
      ∃ f, ctx.head? = some f ∧ ∃ t a cs,
        firstBlockContent f.after = some (Node.element t a cs) ∧
        lowerS t ≠ "ul" ∧ lowerS t ≠ "ol") := by
  refine ⟨?_, ?_, ?_, ?_⟩
  · simp [listNested, List.any_eq_true]
  · intro hn
    simp [convert_list, hn]
  · intro hn
    simp [convert_list, hn]
  · unfold listBeforeParagraph
    cases hh : ctx.head? with
    | none => simp
    | some f =>
      cases hb : firstBlockContent f.after with
      | none => simp [hb]
      | some nd => cases nd <;> simp [hb]

/-- Witness for C6: a `ul` nested under an `li` frame gets the tight-nesting
form. -/
theorem claim_C6_list_wrapping_witness :
    convert_list "ul" [⟨"li", [], [], []⟩] (str "* a\n\n") = str "\n* a" := by
  rw [(claim_C6_list_wrapping "ul" [⟨"li", [], [], []⟩] (str "* a\n\n")).2.1 (by decide)]
  decide

/-- C8: for a text node with a `pre`/`code`/`kbd`/`samp` ancestor the escaper
is never applied: the result of `processText` is the same for every setting
of `escape_asterisks`, `escape_underscores` and `escape_misc`. -/
theorem claim_C8_no_escaping_in_code (conv : Options) (a u m : Bool)
    (ancestors : List String) (prev next : Option Node) (value : Str)
    (hanc : hasAncestorIn ancestors ["pre", "code", "kbd", "samp"] = true) :
    processText
        { conv with escape_asterisks := a, escape_underscores := u, escape_misc := m }
        ancestors prev next value =
      processText conv ancestors prev next value := by
  simp only [processText, hanc, Bool.not_true, Bool.false_eq_true, if_false]

/-- Witness for C8: inside a `code` ancestor the text `*a_b*` is untouched by
any combination of escape flags. -/
theorem claim_C8_no_escaping_in_code_witness :
    processText
        { ({} : Options) with escape_asterisks := false, escape_underscores := false, escape_misc := true }
        ["code"] none none (str "*a_b*") =
      processText {} ["code"] none none (str "*a_b*") :=
  claim_C8_no_escaping_in_code {} false false true ["code"] none none (str "*a_b*")
    (by decide)

/-- C7: the bullet of a non-empty `li`.  For an `ol` parent the bullet is
`(start + index) + "."` with `start` the parsed numeric `start` attribute or
`1` when absent, and `index` the li's position among its parent's `li`
element children.  Otherwise the bullet is the character of the `bullets`
option at index `depth mod length`, where `depth` is the unordered-list
nesting depth (number of `ul` elements on the ancestor chain, minus one);
and the whole `convert_li` output begins with this bullet and a space. -/
theorem claim_C7_li_bullet (conv : Options) (ctx : Ctx) (f : Frame)
    (hctx : ctx.head? = some f) :
    (lowerS f.parentTag = "ol" → getAttribute f.parentAttrs "start" = none →
      liBullet conv "li" ctx = str (toString (1 + (liIndex f : Int))) ++ str ".") ∧
    (∀ v s, lowerS f.parentTag = "ol" → getAttribute f.parentAttrs "start" = some v →
      jsParseInt v.data = some s →
      liBullet conv "li" ctx = str (toString (s + (liIndex f : Int))) ++ str ".") ∧
    (∀ c, lowerS f.parentTag ≠ "ol" → conv.bullets.data ≠ [] →
      0 < ulChainCount "li" ctx →
      conv.bullets.data.get? ((ulChainCount "li" ctx - 1) % conv.bullets.data.length) = some c →
      liBullet conv "li" ctx = [c]) ∧
    (∀ text, jsTrim text ≠ [] →
      (convert_li conv "li" ctx text).take (liBullet conv "li" ctx ++ [' ']).length =
        liBullet conv "li" ctx ++ [' ']) := by
  refine ⟨?_, ?_, ?_, ?_⟩
  · intro hol hstart
    simp [liBullet, hctx, hol, olStartValue, hstart, str]
  · intro v s hol hstart hparse
    have hv : v.data.isEmpty = false := by
      cases hd : v.data
      · rw [hd] at hparse
        simp [jsParseInt] at hparse
      · rfl
    simp [liBullet, hctx, hol, olStartValue, hstart, hv, hparse, str]
  · intro c hol hb hcount hget
    have holb : (lowerS f.parentTag == "ol") = false := by
      simp [hol]
    have hlen : (conv.bullets.data.length == 0) = false := by
      cases hdd : conv.bullets.data with
      | nil => exact absurd hdd hb
      | cons a l => rfl
    have hd : ((ulChainCount "li" ctx : Int) - 1) =
        ((ulChainCount "li" ctx - 1 : Nat) : Int) := by
      omega
    have htm : Int.tmod ((ulChainCount "li" ctx - 1 : Nat) : Int)
        ((conv.bullets.data.length : Nat) : Int) =
        (((ulChainCount "li" ctx - 1) % conv.bullets.data.length : Nat) : Int) := rfl
    simp only [liBullet, hctx, holb, Bool.false_eq_true, if_false, jsRem, hlen, hd,
      jsIndex]
    rw [htm]
    rw [if_neg (not_lt.mpr (Int.natCast_nonneg _))]
    rw [Int.toNat_natCast]
    rw [hget]
  · intro text hne
    have hne' : (jsTrim text).isEmpty = false := by
      cases hd : jsTrim text
      · exact absurd hd hne
      · rfl
    simp only [convert_li, hne', Bool.false_eq_true, if_false]
    rw [List.append_assoc]
    exact List.take_left _ _

/-- Witness for C7: `<ol start="3"><li>x</li></ol>` produces the bullet `3.`,
and the full li output `3. x` plus newline starts with that bullet. -/
theorem claim_C7_li_bullet_witness :
    liBullet {} "li" [⟨"ol", [("start", "3")], [], []⟩] = str "3." ∧
    (convert_li {} "li" [⟨"ol", [("start", "3")], [], []⟩] (str "x")).take 3 = str "3. " := by
  have h1 := (claim_C7_li_bullet {} [⟨"ol", [("start", "3")], [], []⟩] _ rfl).2.1
    "3" 3 (by decide) (by decide) (by decide)
  constructor
  · rw [h1]
    decide
  · have h2 := (claim_C7_li_bullet {} [⟨"ol", [("start", "3")], [], []⟩] _ rfl).2.2.2
      (str "x") (by decide)
    rw [h1] at h2
    exact h2

/-- C3: for a first row that is a head row (every cell a `th`, or the parent a
`thead` with exactly one element child), `convert_tr` emits the row's cells
followed by a separator line `| --- | ... | --- |` whose number of `---`
segments is the total colspan of the row's cells (the hypotheses ask that the
eager `isHeadRowMissing` computation does not throw and that the colspan sum
is a valid array length `n`). -/
theorem claim_C3_head_row_separator (conv : Options) (el : Node) (ctx : Ctx) (text : Str)
    (b : Bool) (n : Nat)
    (hfirst : trIsFirstRow ctx = true)
    (hhead : trIsHeadRow (trCells (elChildren el)) ctx = true)
    (hmiss : trHeadRowMissing el ctx true = some b)
    (hcol : jsArrayLength (trFullColspan (trCells (elChildren el))) = some n) :
    convert_tr conv el ctx text =
      some ('|' :: text ++ '\n' ::
        (str "| " ++ List.intercalate (str " | ") (List.replicate n (str "---")) ++
          str " |\n")) := by
  simp [convert_tr, hfirst, hhead, hmiss, hcol]

/-- Witness for C3: a table whose single `tr` holds two `th` cells (default
options, `table_infer_header` false) yields the row followed by
`| --- | --- |`. -/
theorem claim_C3_head_row_separator_witness :
    convert_tr {}
      (Node.element "tr" []
        [Node.element "th" [] [Node.text "a"], Node.element "th" [] [Node.text "b"]])
      [⟨"table", [], [], []⟩] (str " a | b |") =
      some (str "| a | b |\n| --- | --- |\n") := by
  rw [claim_C3_head_row_separator {}
    (Node.element "tr" []
      [Node.element "th" [] [Node.text "a"], Node.element "th" [] [Node.text "b"]])
    [⟨"table", [], [], []⟩] (str " a | b |") true 2 (by decide) (by decide) (by decide)
    (by decide)]
  decide

/-! ### Helper lemmas for the newline-collision merge (C1) -/

theorem takeWhile_newline_eq_replicate (l : Str) :
    l.takeWhile (· == '\n') =
      List.replicate (l.takeWhile (· == '\n')).length '\n' := by
  apply List.eq_replicate_of_mem
  intro b hb
  have := List.mem_takeWhile_imp hb
  exact eq_of_beq this

theorem replicate_leading_append (s : Str) :
    List.replicate (leadingNewlineCount s) '\n' ++ stripLeadingNewlines s = s := by
  unfold leadingNewlineCount stripLeadingNewlines
  conv_rhs => rw [← List.takeWhile_append_dropWhile (· == '\n') s]
  rw [← takeWhile_newline_eq_replicate]

theorem strip_trailing_append (s : Str) :
    stripTrailingNewlines s ++ List.replicate (trailingNewlineCount s) '\n' = s := by
  unfold stripTrailingNewlines trailingNewlineCount
  rw [← List.reverse_replicate, ← takeWhile_newline_eq_replicate, ← List.reverse_append,
    List.takeWhile_append_dropWhile, List.reverse_reverse]

theorem head?_dropWhile_false (p : Char → Bool) (l : Str) :
    ∀ x, (l.dropWhile p).head? = some x → p x = false := by
  induction l with
  | nil => intro x h; simp [List.dropWhile] at h
  | cons a t ih =>
    intro x h
    by_cases hp : p a
    · rw [List.dropWhile_cons_of_pos hp] at h
      exact ih x h
    · rw [List.dropWhile_cons_of_neg hp] at h
      simp at h
      subst h
      exact Bool.eq_false_iff.mpr hp

theorem stripLeadingNewlines_head (s : Str) :
    (stripLeadingNewlines s).head? ≠ some '\n' := by
  intro h
  have := head?_dropWhile_false (· == '\n') s '\n' h
  simp at this

theorem stripTrailingNewlines_getLast (s : Str) :
    (stripTrailingNewlines s).getLast? ≠ some '\n' := by
  intro h
  rw [stripTrailingNewlines, List.getLast?_reverse] at h
  have := head?_dropWhile_false (· == '\n') s.reverse '\n' h
  simp at this

theorem length_sub_stripTrailing (s : Str) :
    s.length - (stripTrailingNewlines s).length = trailingNewlineCount s := by
  have h := congrArg List.length (strip_trailing_append s)
  simp at h
  omega

theorem length_sub_stripLeading (s : Str) :
    s.length - (stripLeadingNewlines s).length = leadingNewlineCount s := by
  have h := congrArg List.length (replicate_leading_append s)
  simp at h
  omega

/-- C1: the newline-collision merge of `processTag`.  The accumulator splits
as a newline-free-tail part plus its run of trailing newlines, the new piece
as its run of leading newlines plus a newline-free-head part, and the merge
glues the two stripped parts with exactly `max(trailing, leading)` newlines.
The final conjunct shows that `processChildren` (the walker's child fold)
merges every element child's converted text into the accumulator with exactly
this function, for every child list and accumulated prefix. -/
theorem claim_C1_newline_collision_merge (text nextText : Str) :
    (stripTrailingNewlines text ++ List.replicate (trailingNewlineCount text) '\n' = text) ∧
    (List.replicate (leadingNewlineCount nextText) '\n' ++ stripLeadingNewlines nextText
      = nextText) ∧
    ((stripTrailingNewlines text).getLast? ≠ some '\n') ∧
    ((stripLeadingNewlines nextText).head? ≠ some '\n') ∧
    (mergeNewlineCollision text nextText =
      stripTrailingNewlines text ++
        List.replicate (max (trailingNewlineCount text) (leadingNewlineCount nextText)) '\n' ++
        stripLeadingNewlines nextText) ∧
    (∀ (conv : Options) (parentTag : String) (parentAttrs : List (String × String))
        (ctx : Ctx) (removeInside : Bool) (before rest : List Node)
        (tag2 : String) (attrs2 : List (String × String)) (kids : List Node)
        (inline : Bool),
      processChildren conv parentTag parentAttrs ctx removeInside before
          (Node.element tag2 attrs2 kids :: rest) inline text =
        (processTag conv (Node.element tag2 attrs2 kids)
            (⟨parentTag, parentAttrs, before, rest⟩ :: ctx) inline).bind
          (fun nextPiece =>
            processChildren conv parentTag parentAttrs ctx removeInside
              (Node.element tag2 attrs2 kids :: before) rest inline
              (mergeNewlineCollision text nextPiece))) := by
  refine ⟨strip_trailing_append text, replicate_leading_append nextText,
    stripTrailingNewlines_getLast text, stripLeadingNewlines_head nextText, ?_, ?_⟩
  · simp only [mergeNewlineCollision, length_sub_stripTrailing, length_sub_stripLeading]
  · intro conv parentTag parentAttrs ctx removeInside before rest tag2 attrs2 kids inline
    rw [processChildren]
    simp [canIgnore]
    intro v h
    exact Node.noConfusion h

/-- Witness for C1 at a concrete pair: two trailing against one leading
newline merge into two. -/
theorem claim_C1_newline_collision_merge_witness :
    mergeNewlineCollision (str "a\n\n") (str "\nb") = str "a\n\nb" := by
  rw [(claim_C1_newline_collision_merge (str "a\n\n") (str "\nb")).2.2.2.2.1]
  decide

end Markdownify
